import Mathlib

set_option linter.unusedVariables false

/-!
# Verification of the shketch grid/canvas core

Shallow embedding of the Rust sources of `safe-k/shketch`:

* `src/grid.rs` — `Point`, `Cell`, `Segment`, `CharSet`, `Tracer::connect`;
* `tui/src/canvas.rs` — `Style`, `Canvas` and its `update`/`undo`/`clear`;
* `crates/grid/src/unit.rs` — `Segment::boundaries` and the
  `From<Segment> for String` block serialization.

Coordinates in the source are `u16`.  We embed them as `Nat`.  All four
unit-step mutators of `Point` use unchecked `u16` arithmetic in the
source, so each is embedded twice: a checked variant returning
`Option Point` whose `none` is the underflow branch of `-= 1` (at 0) or
the overflow branch of `+= 1` (at the `u16` maximum 65535) — a panic in
a debug build, a wrap in a release build — and a total variant.  The
total variants are only used at call sites where a guard keeps the
arithmetic in range for every `u16` input: inside `Tracer::connect` the
cursor moves strictly toward the target, so it stays between the two
input coordinates.

The terminal sink is embedded as the list of per-cell write instructions
(`ESC[y;xH glyph` is abstracted as the written `Cell`); an erase of a
cell is the write of the same position with a blank glyph.
-/

/-- Embedding of `Point` from `src/grid.rs`: a 2D grid coordinate (`u16` fields). -/
structure Point where
  x : Nat
  y : Nat
deriving DecidableEq, Repr

/-- Embedding of `Point::move_to`. -/
def Point.move_to (_p : Point) (x y : Nat) : Point := ⟨x, y⟩

/-- Embedding of `Point::move_up` (`self.y -= 1`), total form: valid when `0 < y`. -/
def Point.move_up (p : Point) : Point := ⟨p.x, p.y - 1⟩

/-- Embedding of `Point::move_down` (`self.y += 1`), total form: valid
when `y` is below the `u16` maximum. -/
def Point.move_down (p : Point) : Point := ⟨p.x, p.y + 1⟩

/-- Embedding of `Point::move_left` (`self.x -= 1`), total form: valid when `0 < x`. -/
def Point.move_left (p : Point) : Point := ⟨p.x - 1, p.y⟩

/-- Embedding of `Point::move_right` (`self.x += 1`), total form: valid
when `x` is below the `u16` maximum. -/
def Point.move_right (p : Point) : Point := ⟨p.x + 1, p.y⟩

/-- Checked form of `Point::move_up`: `none` is the unchecked-subtraction
error branch (`u16` underflow, a panic in a debug build). -/
def Point.move_up_checked (p : Point) : Option Point :=
  if p.y = 0 then none else some p.move_up

/-- Checked form of `Point::move_left`: `none` is the unchecked-subtraction
error branch (`u16` underflow, a panic in a debug build). -/
def Point.move_left_checked (p : Point) : Option Point :=
  if p.x = 0 then none else some p.move_left

/-- Checked form of `Point::move_down`: `none` is the unchecked-addition
overflow branch (`u16` overflow at 65535, a panic in a debug build). -/
def Point.move_down_checked (p : Point) : Option Point :=
  if p.y < 2 ^ 16 - 1 then some p.move_down else none

/-- Checked form of `Point::move_right`: `none` is the unchecked-addition
overflow branch (`u16` overflow at 65535, a panic in a debug build). -/
def Point.move_right_checked (p : Point) : Option Point :=
  if p.x < 2 ^ 16 - 1 then some p.move_right else none

/-- Embedding of `Default for Point` is `(1, 1)`. -/
def Point.default : Point := ⟨1, 1⟩

/-- Embedding of `Cell` from `src/grid.rs`: a position plus one glyph. -/
structure Cell where
  pos : Point
  content : Char
deriving DecidableEq, Repr

/-- Embedding of `Segment` from `src/grid.rs`: an ordered sequence of cells. -/
structure Segment where
  cells : List Cell
deriving DecidableEq, Repr

/-- Embedding of `Segment::new`. -/
def Segment.new : Segment := ⟨[]⟩

/-- Embedding of `Segment::add`: push one cell. -/
def Segment.add (s : Segment) (c : Cell) : Segment := ⟨s.cells ++ [c]⟩

/-- Embedding of `Segment::clear`. -/
def Segment.clearAll (s : Segment) : Segment := ⟨[]⟩

/-- Embedding of `AddAssign for Segment`: append the right operand's cells after the
left's. -/
def Segment.append (s t : Segment) : Segment := ⟨s.cells ++ t.cells⟩

/-- Embedding of `Cell::erase` (`unit.rs` `Erase for Cell`): blank the content and emit
the resulting write instruction. -/
def Cell.eraseWrite (c : Cell) : Cell := { c with content := ' ' }

/-- Embedding of `Segment::erase` (`unit.rs` `Erase for Segment`): the sequence of sink
writes it performs — each cell re-rendered blank at its position. -/
def Segment.eraseWrites (s : Segment) : List Cell :=
  s.cells.map Cell.eraseWrite

/-- Embedding of `CharSet` from `src/grid.rs`. -/
structure CharSet where
  stationary : Char
  up : Char
  down : Char
  left : Char
  right : Char
  diagonal_back : Char
  diagonal_forward : Char
deriving DecidableEq, Repr

/-- Embedding of `CharSet::next` from `src/grid.rs`: the guarded match arms, in source
order, over the previous position `p` and the new position `q`. -/
def CharSet.next (cs : CharSet) (p q : Point) : Char :=
  if p.x = q.x ∧ p.y < q.y then cs.up
  else if p.x = q.x ∧ q.y < p.y then cs.down
  else if p.x < q.x ∧ p.y = q.y then cs.left
  else if q.x < p.x ∧ p.y = q.y then cs.right
  else if (q.x < p.x ∧ q.y < p.y) ∨ (p.x < q.x ∧ p.y < q.y) then cs.diagonal_back
  else if (q.x < p.x ∧ p.y < q.y) ∨ (p.x < q.x ∧ q.y < p.y) then cs.diagonal_forward
  else cs.stationary

/-- Embedding of `Default for CharSet` from `src/grid.rs`. -/
def CharSet.default : CharSet :=
  { stationary := '.'
    up := '|'
    down := '|'
    left := '_'
    right := '_'
    diagonal_back := '\\'
    diagonal_forward := '/' }

/-- The first `match` of the loop body of `Tracer::connect`
(`cursor.y.cmp(&to.y)`): move the cursor one unit toward the target on
the y axis if it differs.  `move_up` is only reached under the guard
`tgt.y < cursor.y`, so the `u16` subtraction cannot underflow and the
total form is exact there. -/
def Tracer.stepY (cursor tgt : Point) : Point :=
  if tgt.y < cursor.y then cursor.move_up
  else if cursor.y < tgt.y then cursor.move_down
  else cursor

/-- The second `match` of the loop body of `Tracer::connect`
(`cursor.x.cmp(&to.x)`): move the cursor one unit toward the target on
the x axis if it differs.  `move_left` is only reached under the guard
`tgt.x < cursor.x`, so the `u16` subtraction cannot underflow and the
total form is exact there. -/
def Tracer.stepX (cursor tgt : Point) : Point :=
  if tgt.x < cursor.x then cursor.move_left
  else if cursor.x < tgt.x then cursor.move_right
  else cursor

/-- One iteration of the cursor movement in `Tracer::connect`: the two
axis steps in source order (y first, then x). -/
def Tracer.stepCursor (cursor tgt : Point) : Point :=
  Tracer.stepX (Tracer.stepY cursor tgt) tgt

/-- Distance of one axis: `|a − b|` over `Nat`. -/
def axisDist (a b : Nat) : Nat := max (a - b) (b - a)

/-- The loop measure of `Tracer::connect`: the Chebyshev distance
`max |Δx| |Δy|` between cursor and target. -/
def Point.chebyshev (p q : Point) : Nat := max (axisDist p.x q.x) (axisDist p.y q.y)

theorem axisDist_self (a : Nat) : axisDist a a = 0 := by
  simp [axisDist]

theorem axisDist_eq_zero_iff {a b : Nat} : axisDist a b = 0 ↔ a = b := by
  unfold axisDist
  omega

theorem chebyshev_eq_zero_iff {p q : Point} : p.chebyshev q = 0 ↔ p = q := by
  unfold Point.chebyshev
  rw [Nat.max_eq_zero_iff, axisDist_eq_zero_iff, axisDist_eq_zero_iff]
  constructor
  · rintro ⟨hx, hy⟩
    cases p; cases q; simp_all
  · rintro rfl; exact ⟨rfl, rfl⟩

theorem stepY_x (c t : Point) : (Tracer.stepY c t).x = c.x := by
  unfold Tracer.stepY Point.move_up Point.move_down
  repeat' split
  all_goals rfl

theorem stepY_dist (c t : Point) :
    axisDist (Tracer.stepY c t).y t.y = axisDist c.y t.y - 1 := by
  unfold Tracer.stepY Point.move_up Point.move_down
  repeat' split
  all_goals simp [axisDist]
  all_goals omega

theorem stepX_y (c t : Point) : (Tracer.stepX c t).y = c.y := by
  unfold Tracer.stepX Point.move_left Point.move_right
  repeat' split
  all_goals rfl

theorem stepX_dist (c t : Point) :
    axisDist (Tracer.stepX c t).x t.x = axisDist c.x t.x - 1 := by
  unfold Tracer.stepX Point.move_left Point.move_right
  repeat' split
  all_goals simp [axisDist]
  all_goals omega

/-- Each loop iteration of `Tracer::connect` decreases the Chebyshev
distance to the target by exactly one. -/
theorem stepCursor_chebyshev (cursor tgt : Point) (h : cursor ≠ tgt) :
    (Tracer.stepCursor cursor tgt).chebyshev tgt + 1 = cursor.chebyshev tgt := by
  have hne : ¬(cursor.x = tgt.x ∧ cursor.y = tgt.y) := by
    rintro ⟨h1, h2⟩
    exact h (by cases cursor; cases tgt; simp_all)
  have h1 := stepX_dist (Tracer.stepY cursor tgt) tgt
  have h2 := stepX_y (Tracer.stepY cursor tgt) tgt
  have h3 := stepY_x cursor tgt
  have h4 := stepY_dist cursor tgt
  have hax : axisDist cursor.x tgt.x = 0 ↔ cursor.x = tgt.x := axisDist_eq_zero_iff
  have hay : axisDist cursor.y tgt.y = 0 ↔ cursor.y = tgt.y := axisDist_eq_zero_iff
  unfold Tracer.stepCursor Point.chebyshev
  rw [h1, h2, h3, h4]
  omega

theorem stepCursor_chebyshev_lt (cursor tgt : Point) (h : cursor ≠ tgt) :
    (Tracer.stepCursor cursor tgt).chebyshev tgt < cursor.chebyshev tgt := by
  have := stepCursor_chebyshev cursor tgt h
  omega

/-- The loop of `Tracer::connect` from `src/grid.rs`: while the cursor
differs from the target, step the cursor, pick the glyph for the move
just taken with `CharSet::next`, and append the new cell. -/
def Tracer.connectGo (cs : CharSet) (tgt cursor : Point) : List Cell :=
  if h : cursor = tgt then []
  else
    let next := Tracer.stepCursor cursor tgt
    ⟨next, cs.next cursor next⟩ :: Tracer.connectGo cs tgt next
termination_by cursor.chebyshev tgt
decreasing_by
  exact stepCursor_chebyshev_lt cursor tgt h

/-- Embedding of `Tracer` from `src/grid.rs` holds its `CharSet`. -/
structure Tracer where
  char_set : CharSet

/-- Embedding of `Connect for Tracer`: `connect(from, tgt)` builds the traced segment. -/
def Tracer.connect (t : Tracer) (p tgt : Point) : Segment :=
  ⟨Tracer.connectGo t.char_set tgt p⟩

/-- Embedding of `Default for Tracer`. -/
def Tracer.default : Tracer := ⟨CharSet.default⟩


/-- Embedding of `Style` from `tui/src/canvas.rs`. -/
inductive Style where
  | plot : Style
  | line : Style
deriving DecidableEq, Repr

/-- Embedding of `From<char> for Style`: the literal `'2'` selects `Line`, every other
code selects `Plot`. -/
def Style.fromChar (c : Char) : Style :=
  if c = '2' then Style.line else Style.plot

/-- Embedding of `MouseAction` consumed by `Canvas::update` (`Press`/`Drag`/`Release`;
the `grid/src/canvas.rs` iteration calls the drag action `Hold`). -/
inductive MouseAction where
  | press : MouseAction
  | drag : MouseAction
  | release : MouseAction
deriving DecidableEq, Repr

/-- Embedding of `MouseEvent`: an action plus a position. -/
structure MouseEvent where
  action : MouseAction
  pos : Point
deriving DecidableEq, Repr

/-- The state of `Canvas` from `tui/src/canvas.rs`.  The sink (`writer`)
is externalized: every operation returns the list of cell writes it sends
to the sink.  The `brush` is passed explicitly to `update`. -/
structure Canvas where
  style : Style
  base : List Segment
  overlay : Segment
  sketch : Segment
  cursor : Point
deriving DecidableEq, Repr

/-- Embedding of `Canvas::TOOLBAR_BOUNDARY`. -/
def Canvas.TOOLBAR_BOUNDARY : Nat := 3

/-- Embedding of `Canvas::new`: default style (`Plot`), empty `base`/`overlay`/`sketch`,
cursor at the default point `(1, 1)`. -/
def Canvas.new : Canvas :=
  { style := Style.plot
    base := []
    overlay := Segment.new
    sketch := Segment.new
    cursor := Point.default }

/-- Embedding of `Canvas::pin`: replace the overlay wholesale. -/
def Canvas.pin (c : Canvas) (overlay : Segment) : Canvas := { c with overlay }

/-- Embedding of `Canvas::alt_style`: pure state switch. -/
def Canvas.alt_style (c : Canvas) (style : Style) : Canvas := { c with style }

/-- Embedding of `Canvas::update` from `tui/src/canvas.rs`: dispatch on the event's
action; returns the new canvas state and the sink writes performed.
* `Press(x, y)`: `cursor.move_to(x, y)`, no writes;
* `Drag(x, y)` with `y < TOOLBAR_BOUNDARY`: early `Ok(())`, untouched;
* `Drag(x, y)` in `Plot`: `sketch += brush.connect(cursor, (x, y))` and
  `cursor.move_to(x, y)`, no writes;
* `Drag(x, y)` in `Line`: `sketch.erase(writer)` (the blanking writes),
  then `sketch = brush.connect(cursor, (x, y))`; the cursor stays;
* `Release`: push a clone of `sketch` onto `base`, then clear `sketch`. -/
def Canvas.update (brush : Tracer) (c : Canvas) (e : MouseEvent) :
    Canvas × List Cell :=
  match e.action with
  | MouseAction.press =>
      ({ c with cursor := c.cursor.move_to e.pos.x e.pos.y }, [])
  | MouseAction.drag =>
      if e.pos.y < Canvas.TOOLBAR_BOUNDARY then
        (c, [])
      else
        match c.style with
        | Style.plot =>
            ({ c with
                sketch := c.sketch.append (brush.connect c.cursor e.pos)
                cursor := c.cursor.move_to e.pos.x e.pos.y }, [])
        | Style.line =>
            ({ c with sketch := brush.connect c.cursor e.pos },
             c.sketch.eraseWrites)
  | MouseAction.release =>
      ({ c with base := c.base ++ [c.sketch], sketch := Segment.new }, [])

/-- Embedding of `Canvas::undo` from `tui/src/canvas.rs`: pop the last committed
segment off `base` and erase it; no-op when `base` is empty. -/
def Canvas.undo (c : Canvas) : Canvas × List Cell :=
  match c.base.getLast? with
  | none => (c, [])
  | some s => ({ c with base := c.base.dropLast }, s.eraseWrites)

/-- Embedding of `Canvas::clear` from `tui/src/canvas.rs`: the `for segment in &mut
self.base` loop erases every segment of `base` in order (accumulating
its sink writes), then `base` is emptied, `sketch` is erased, and
`sketch` is emptied. -/
def Canvas.clearAll (c : Canvas) : Canvas × List Cell :=
  ({ c with base := [], sketch := Segment.new },
   (c.base.foldl (fun acc s => acc ++ s.eraseWrites) []) ++ c.sketch.eraseWrites)

/-- Fold a stream of mouse events through `Canvas::update` (the event
loop), discarding sink output. -/
def Canvas.applyEvents (brush : Tracer) (c : Canvas) (es : List MouseEvent) :
    Canvas :=
  es.foldl (fun c e => (Canvas.update brush c e).1) c

/-- Embedding of `Segment::boundaries` from `crates/grid/src/unit.rs`: `None` for an
empty segment, else the min corner and max corner over all cell
positions.  `Option.getD 0` stands for the `.expect(...)` calls, whose
panic branch is unreachable because the list is non-empty. -/
def Segment.boundaries (s : Segment) : Option (Point × Point) :=
  if s.cells.isEmpty then none
  else
    some
      (⟨((s.cells.map fun c => c.pos.x).min?).getD 0,
        ((s.cells.map fun c => c.pos.y).min?).getD 0⟩,
       ⟨((s.cells.map fun c => c.pos.x).max?).getD 0,
        ((s.cells.map fun c => c.pos.y).max?).getD 0⟩)

/-- The character the `From<Segment> for String` loop body pushes for the
grid position `p`: the content of the first cell of the sequence sitting
at `p` (`cells.iter().find(...)`), or a blank when no cell is there. -/
def Segment.charAt (s : Segment) (p : Point) : Char :=
  match s.cells.find? (fun c => decide (c.pos = p)) with
  | some c => c.content
  | none => ' '

/-- The row structure of `From<Segment> for String` from
`crates/grid/src/unit.rs`: the outer `while cursor.y <= end.y` loop
yields one row per `y` from `start.y` to `end.y` inclusive, and the inner
`while cursor.x <= end.x` loop yields one character per `x` from
`start.x` to `end.x` inclusive. -/
def Segment.toBlock (s : Segment) : List (List Char) :=
  match s.boundaries with
  | none => []
  | some (start, stop) =>
      (List.range (stop.y + 1 - start.y)).map fun j =>
        (List.range (stop.x + 1 - start.x)).map fun i =>
          s.charAt ⟨start.x + i, start.y + j⟩

/-- Embedding of `From<Segment> for String`: each row's characters followed by the
`'\n'` pushed at the end of the outer loop body; an empty segment gives
the empty string. -/
def Segment.toBlockString (s : Segment) : List Char :=
  ((s.toBlock).map fun row => row ++ ['\n']).flatten

/-- A `CharSet` with pairwise distinct glyphs, used to tell the fields of
the selector apart (the default set has `up = down` and `left = right`). -/
def markedCharSet : CharSet :=
  { stationary := '.'
    up := 'u'
    down := 'd'
    left := 'l'
    right := 'r'
    diagonal_back := 'b'
    diagonal_forward := 'f' }

/-- The trace produced by the loop of `Tracer::connect` has exactly one
cell per iteration: its length is the Chebyshev distance from the start
to the target. -/
theorem connectGo_length (cs : CharSet) (tgt cursor : Point) :
    (Tracer.connectGo cs tgt cursor).length = cursor.chebyshev tgt := by
  generalize hn : cursor.chebyshev tgt = n
  induction n generalizing cursor with
  | zero =>
      have hc : cursor = tgt := chebyshev_eq_zero_iff.mp hn
      subst hc
      rw [Tracer.connectGo]
      simp
  | succ n ih =>
      have hne : cursor ≠ tgt := by
        intro hc
        rw [hc, chebyshev_eq_zero_iff.mpr rfl] at hn
        exact Nat.succ_ne_zero n hn.symm
      have hstep := stepCursor_chebyshev cursor tgt hne
      rw [Tracer.connectGo, dif_neg hne]
      simp only [List.length_cons]
      rw [ih (Tracer.stepCursor cursor tgt) (by omega)]

theorem axisDist_eq_natAbs (a b : Nat) :
    axisDist a b = ((a : Int) - (b : Int)).natAbs := by
  unfold axisDist
  omega

/-- C1: for all points `P` and `Q`, `Tracer::connect(P, Q)` terminates
(it is a total function here, built by well-founded recursion on the
Chebyshev distance) and returns a `Segment` with exactly
`max (|P.x − Q.x|) (|P.y − Q.y|)` cells; in particular `connect(P, P)`
is the empty `Segment`. -/
theorem connect_cell_count (t : Tracer) (p q : Point) :
    ((t.connect p q).cells).length =
      max (((p.x : Int) - (q.x : Int)).natAbs) (((p.y : Int) - (q.y : Int)).natAbs) ∧
    (t.connect p p).cells = [] := by
  constructor
  · rw [Tracer.connect]
    rw [connectGo_length]
    rw [Point.chebyshev, axisDist_eq_natAbs, axisDist_eq_natAbs]
  · rw [Tracer.connect, Tracer.connectGo]
    simp

/-- C2 counterexample: moving from `(1, 2)` to `(1, 1)` — no horizontal
change, `y` decreased — `CharSet::next` selects the `down` field, not the
`up` field the claim names (the two fields only coincide in the default
`CharSet`). -/
theorem charset_next_claim_counterexample :
    markedCharSet.next ⟨1, 2⟩ ⟨1, 1⟩ = markedCharSet.down ∧
    markedCharSet.next ⟨1, 2⟩ ⟨1, 1⟩ ≠ markedCharSet.up := by
  decide

/-- C2 (amended): `CharSet::next`, applied to the previous position `p`
and the newly visited position `q`, selects: the `down` field when only
`y` decreased; the `up` field when only `y` increased; the `right` field
when only `x` decreased; the `left` field when only `x` increased; the
`diagonal_back` field when both coordinates changed with the same sign;
the `diagonal_forward` field when they changed with opposite signs; and
the `stationary` field when nothing changed. -/
theorem charset_next_mapping (cs : CharSet) (p q : Point) :
    (p.x = q.x → q.y < p.y → cs.next p q = cs.down) ∧
    (p.x = q.x → p.y < q.y → cs.next p q = cs.up) ∧
    (q.x < p.x → p.y = q.y → cs.next p q = cs.right) ∧
    (p.x < q.x → p.y = q.y → cs.next p q = cs.left) ∧
    ((q.x < p.x ∧ q.y < p.y) ∨ (p.x < q.x ∧ p.y < q.y) →
      cs.next p q = cs.diagonal_back) ∧
    ((q.x < p.x ∧ p.y < q.y) ∨ (p.x < q.x ∧ q.y < p.y) →
      cs.next p q = cs.diagonal_forward) ∧
    (p = q → cs.next p q = cs.stationary) := by
  unfold CharSet.next
  refine ⟨?_, ?_, ?_, ?_, ?_, ?_, ?_⟩
  · intro h1 h2
    rw [if_neg (by omega), if_pos (by omega)]
  · intro h1 h2
    rw [if_pos (by omega)]
  · intro h1 h2
    rw [if_neg (by omega), if_neg (by omega), if_neg (by omega), if_pos (by omega)]
  · intro h1 h2
    rw [if_neg (by omega), if_neg (by omega), if_pos (by omega)]
  · intro h1
    rw [if_neg (by omega), if_neg (by omega), if_neg (by omega), if_neg (by omega),
      if_pos (by omega)]
  · intro h1
    rw [if_neg (by omega), if_neg (by omega), if_neg (by omega), if_neg (by omega),
      if_neg (by omega), if_pos (by omega)]
  · rintro rfl
    rw [if_neg (by omega), if_neg (by omega), if_neg (by omega), if_neg (by omega),
      if_neg (by omega), if_neg (by omega)]

/-- Witness for `charset_next_mapping` at a concrete input: with the
default glyph set, the step from `(1, 2)` to `(1, 1)` renders the `down`
field. -/
theorem charset_next_mapping_witness :
    (1 : Nat) < 2 ∧ CharSet.default.next ⟨1, 2⟩ ⟨1, 1⟩ = CharSet.default.down :=
  ⟨by decide, (charset_next_mapping CharSet.default ⟨1, 2⟩ ⟨1, 1⟩).1 rfl (by decide)⟩

/-- C9 counterexample: the point `(1, 65535)` has its `y` coordinate
strictly above the minimum, yet `move_down` does not increment it by
one: `self.y += 1` on `u16` overflows at 65535 — the checked embedding
hits its error branch (a panic in a debug build, a wrap to 0 in a
release build) — so the claimed unconditional increment fails inside
the claim's scope.  Likewise `move_right` at `(65535, 1)`. -/
theorem point_moves_claim_counterexample :
    0 < (65535 : Nat) ∧
    (Point.mk 1 65535).move_down_checked = none ∧
    (Point.mk 65535 1).move_right_checked = none := by
  decide

/-- C9 (amended): when the decremented coordinate is strictly above the
`u16` minimum (0), `move_up`/`move_left` decrement it by exactly one and
the unchecked-subtraction error branch of the checked forms is
unreachable; when the incremented coordinate is strictly below the `u16`
maximum (65535), `move_down`/`move_right` increment it by exactly one
and the unchecked-addition overflow branch is unreachable; each mutator
leaves the other coordinate untouched. -/
theorem point_moves_spec (p : Point) :
    (0 < p.y →
      p.move_up_checked = some p.move_up ∧
      (p.move_up).y + 1 = p.y ∧ (p.move_up).x = p.x) ∧
    (0 < p.x →
      p.move_left_checked = some p.move_left ∧
      (p.move_left).x + 1 = p.x ∧ (p.move_left).y = p.y) ∧
    (p.y < 2 ^ 16 - 1 →
      p.move_down_checked = some p.move_down ∧
      (p.move_down).y = p.y + 1 ∧ (p.move_down).x = p.x) ∧
    (p.x < 2 ^ 16 - 1 →
      p.move_right_checked = some p.move_right ∧
      (p.move_right).x = p.x + 1 ∧ (p.move_right).y = p.y) := by
  unfold Point.move_up_checked Point.move_left_checked
  unfold Point.move_down_checked Point.move_right_checked
  unfold Point.move_up Point.move_down Point.move_left Point.move_right
  refine ⟨fun hy => ⟨?_, ?_, rfl⟩, fun hx => ⟨?_, ?_, rfl⟩,
    fun hy => ⟨?_, rfl, rfl⟩, fun hx => ⟨?_, rfl, rfl⟩⟩
  · rw [if_neg (by omega)]
  · simp
    omega
  · rw [if_neg (by omega)]
  · simp
    omega
  · rw [if_pos (by omega)]
  · rw [if_pos (by omega)]

/-- Witness for `point_moves_spec` at `(2, 3)`: both coordinates are
positive and below the `u16` maximum; `move_up` steps to `(2, 2)` and
`move_down` steps to `(2, 4)`, neither hitting an error branch. -/
theorem point_moves_spec_witness :
    (0 < (3 : Nat) ∧
      (Point.mk 2 3).move_up_checked = some (Point.mk 2 3).move_up ∧
      ((Point.mk 2 3).move_up).y + 1 = 3 ∧ ((Point.mk 2 3).move_up).x = 2) ∧
    (0 < (2 : Nat) ∧
      (Point.mk 2 3).move_left_checked = some (Point.mk 2 3).move_left ∧
      ((Point.mk 2 3).move_left).x + 1 = 2 ∧
      ((Point.mk 2 3).move_left).y = 3) ∧
    ((3 : Nat) < 2 ^ 16 - 1 ∧
      (Point.mk 2 3).move_down_checked = some (Point.mk 2 3).move_down ∧
      ((Point.mk 2 3).move_down).y = 3 + 1 ∧
      ((Point.mk 2 3).move_down).x = 2) ∧
    ((2 : Nat) < 2 ^ 16 - 1 ∧
      (Point.mk 2 3).move_right_checked = some (Point.mk 2 3).move_right ∧
      ((Point.mk 2 3).move_right).x = 2 + 1 ∧
      ((Point.mk 2 3).move_right).y = 3) :=
  ⟨⟨by decide, (point_moves_spec ⟨2, 3⟩).1 (by decide)⟩,
   ⟨by decide, (point_moves_spec ⟨2, 3⟩).2.1 (by decide)⟩,
   ⟨by decide, (point_moves_spec ⟨2, 3⟩).2.2.1 (by decide)⟩,
   ⟨by decide, (point_moves_spec ⟨2, 3⟩).2.2.2 (by decide)⟩⟩

/-- C5: a `Drag` event with `y` under the toolbar boundary (`y < 3`)
returns early: the whole canvas state (cursor, sketch, base, overlay,
style) is unchanged and nothing is written to the sink. -/
theorem drag_toolbar_noop (brush : Tracer) (c : Canvas) (x y : Nat)
    (hy : y < 3) :
    Canvas.update brush c ⟨MouseAction.drag, ⟨x, y⟩⟩ = (c, []) := by
  unfold Canvas.update
  simp only []
  rw [if_pos]
  exact hy

/-- Witness for `drag_toolbar_noop`: a drag at `(7, 2)` on a canvas with
a pending sketch changes nothing. -/
theorem drag_toolbar_noop_witness :
    (2 : Nat) < 3 ∧
    Canvas.update Tracer.default
        { style := Style.plot
          base := [⟨[⟨⟨4, 4⟩, '_'⟩]⟩]
          overlay := ⟨[⟨⟨1, 1⟩, 'o'⟩]⟩
          sketch := ⟨[⟨⟨5, 5⟩, '_'⟩]⟩
          cursor := ⟨5, 5⟩ }
        ⟨MouseAction.drag, ⟨7, 2⟩⟩ =
      ({ style := Style.plot
         base := [⟨[⟨⟨4, 4⟩, '_'⟩]⟩]
         overlay := ⟨[⟨⟨1, 1⟩, 'o'⟩]⟩
         sketch := ⟨[⟨⟨5, 5⟩, '_'⟩]⟩
         cursor := ⟨5, 5⟩ }, []) :=
  ⟨by decide, drag_toolbar_noop Tracer.default _ 7 2 (by decide)⟩

/-- C3: in `Line` style, a `Drag` at `(x, y)` outside the reserved top
margin erases the currently rendered sketch to the sink (each cell
re-written blank at its position), replaces `sketch` entirely with
`connect(cursor, (x, y))`, and leaves the cursor (and `base`, `overlay`,
`style`) unchanged — the anchor set by the last `Press` persists. -/
theorem line_drag_spec (brush : Tracer) (c : Canvas) (x y : Nat)
    (hstyle : c.style = Style.line) (hy : Canvas.TOOLBAR_BOUNDARY ≤ y) :
    Canvas.update brush c ⟨MouseAction.drag, ⟨x, y⟩⟩ =
      ({ c with sketch := brush.connect c.cursor ⟨x, y⟩ },
       c.sketch.cells.map fun cl => { cl with content := ' ' }) ∧
    (Canvas.update brush c ⟨MouseAction.drag, ⟨x, y⟩⟩).1.cursor = c.cursor := by
  unfold Canvas.update
  simp only []
  rw [if_neg (by unfold Canvas.TOOLBAR_BOUNDARY at hy ⊢; omega), hstyle]
  exact ⟨rfl, rfl⟩

theorem undo_empty (c : Canvas) (h : c.base = []) : Canvas.undo c = (c, []) := by
  unfold Canvas.undo
  rw [h]
  rfl

theorem undo_pop (c : Canvas) (pre : List Segment) (s : Segment)
    (h : c.base = pre ++ [s]) :
    Canvas.undo c = ({ c with base := pre }, s.eraseWrites) := by
  unfold Canvas.undo
  rw [h, List.getLast?_concat, List.dropLast_concat]

/-- C6: `undo` pops exactly the most recently committed segment (the last
element of `base`, strict LIFO) and writes each of its cells blank to the
sink; on an empty `base` it changes nothing and writes nothing. -/
theorem undo_spec (c : Canvas) :
    (c.base = [] → Canvas.undo c = (c, [])) ∧
    (∀ pre s, c.base = pre ++ [s] →
      Canvas.undo c =
        ({ c with base := pre },
         s.cells.map fun cl => { cl with content := ' ' })) := by
  exact ⟨undo_empty c, fun pre s h => undo_pop c pre s h⟩

/-- Witness for `undo_spec`: a canvas with one committed one-cell segment;
`undo` leaves `base` empty and blanks the cell at `(4, 4)`. -/
theorem undo_spec_witness :
    [(⟨[⟨⟨4, 4⟩, 'x'⟩]⟩ : Segment)] = [] ++ [⟨[⟨⟨4, 4⟩, 'x'⟩]⟩] ∧
    Canvas.undo
        { style := Style.plot
          base := [⟨[⟨⟨4, 4⟩, 'x'⟩]⟩]
          overlay := Segment.new
          sketch := Segment.new
          cursor := ⟨1, 1⟩ } =
      ({ style := Style.plot
         base := []
         overlay := Segment.new
         sketch := Segment.new
         cursor := ⟨1, 1⟩ }, [⟨⟨4, 4⟩, ' '⟩]) := by
  refine ⟨by decide, ?_⟩
  have h := (undo_spec
      { style := Style.plot
        base := [⟨[⟨⟨4, 4⟩, 'x'⟩]⟩]
        overlay := Segment.new
        sketch := Segment.new
        cursor := ⟨1, 1⟩ }).2 [] ⟨[⟨⟨4, 4⟩, 'x'⟩]⟩ rfl
  simpa using h

theorem foldl_eraseWrites (l : List Segment) (acc : List Cell) :
    l.foldl (fun acc s => acc ++ s.eraseWrites) acc =
      acc ++ (l.map Segment.eraseWrites).flatten := by
  induction l generalizing acc with
  | nil => simp
  | cons s rest ih => simp [ih]

/-- C7: `clear` erases every committed segment of `base` in order and the
current `sketch` to the sink (each cell re-written blank at its own
position), empties both containers, and leaves `overlay` (as well as
`style` and `cursor`) untouched. -/
theorem clear_spec (c : Canvas) :
    Canvas.clearAll c =
      ({ c with base := [], sketch := Segment.new },
       (c.base.map fun s => s.cells.map fun cl => { cl with content := ' ' }).flatten
         ++ c.sketch.cells.map fun cl => { cl with content := ' ' }) ∧
    (Canvas.clearAll c).1.overlay = c.overlay ∧
    (Canvas.clearAll c).1.style = c.style ∧
    (Canvas.clearAll c).1.cursor = c.cursor := by
  refine ⟨?_, rfl, rfl, rfl⟩
  unfold Canvas.clearAll
  rw [foldl_eraseWrites]
  rfl

/-- C4: `Press(5,5)` then `Drag(8,5)` on a fresh canvas in `Plot` style:
the sketch holds exactly the three cells `(6,5)`, `(7,5)`, `(8,5)` (each
with the default horizontal glyph) and the cursor advanced to `(8,5)`;
the following `Release` commits that one segment into `base` and empties
the sketch. -/
theorem plot_scenario_spec :
    (((Canvas.update Tracer.default
        ((Canvas.update Tracer.default Canvas.new ⟨MouseAction.press, ⟨5, 5⟩⟩).1)
        ⟨MouseAction.drag, ⟨8, 5⟩⟩).1).sketch.cells =
      [⟨⟨6, 5⟩, '_'⟩, ⟨⟨7, 5⟩, '_'⟩, ⟨⟨8, 5⟩, '_'⟩]) ∧
    (((Canvas.update Tracer.default
        ((Canvas.update Tracer.default Canvas.new ⟨MouseAction.press, ⟨5, 5⟩⟩).1)
        ⟨MouseAction.drag, ⟨8, 5⟩⟩).1).cursor = ⟨8, 5⟩) ∧
    ((Canvas.update Tracer.default
        ((Canvas.update Tracer.default
          ((Canvas.update Tracer.default Canvas.new ⟨MouseAction.press, ⟨5, 5⟩⟩).1)
          ⟨MouseAction.drag, ⟨8, 5⟩⟩).1)
        ⟨MouseAction.release, ⟨8, 5⟩⟩).1).base =
      [⟨[⟨⟨6, 5⟩, '_'⟩, ⟨⟨7, 5⟩, '_'⟩, ⟨⟨8, 5⟩, '_'⟩]⟩] ∧
    ((Canvas.update Tracer.default
        ((Canvas.update Tracer.default
          ((Canvas.update Tracer.default Canvas.new ⟨MouseAction.press, ⟨5, 5⟩⟩).1)
          ⟨MouseAction.drag, ⟨8, 5⟩⟩).1)
        ⟨MouseAction.release, ⟨8, 5⟩⟩).1).base.length = 1 ∧
    ((Canvas.update Tracer.default
        ((Canvas.update Tracer.default
          ((Canvas.update Tracer.default Canvas.new ⟨MouseAction.press, ⟨5, 5⟩⟩).1)
          ⟨MouseAction.drag, ⟨8, 5⟩⟩).1)
        ⟨MouseAction.release, ⟨8, 5⟩⟩).1).sketch.cells = [] := by
  simp [Canvas.update, Canvas.new, Canvas.TOOLBAR_BOUNDARY, Point.default,
    Point.move_to, Segment.new, Segment.append, Tracer.connect, Tracer.connectGo,
    Tracer.stepCursor, Tracer.stepX, Tracer.stepY, Point.move_right, Point.move_left,
    Point.move_up, Point.move_down, CharSet.next, Tracer.default, CharSet.default]

/-- Witness for `line_drag_spec`: in `Line` style with anchor `(2, 5)`
and a one-cell sketch, a drag to `(6, 5)` blanks the old cell and
re-traces from the anchor, which stays put. -/
theorem line_drag_spec_witness :
    (Canvas.mk Style.line [] Segment.new ⟨[⟨⟨4, 5⟩, '_'⟩]⟩ ⟨2, 5⟩).style
        = Style.line ∧
    Canvas.TOOLBAR_BOUNDARY ≤ 5 ∧
    Canvas.update Tracer.default
        ⟨Style.line, [], Segment.new, ⟨[⟨⟨4, 5⟩, '_'⟩]⟩, ⟨2, 5⟩⟩
        ⟨MouseAction.drag, ⟨6, 5⟩⟩ =
      (⟨Style.line, [], Segment.new,
          Tracer.default.connect ⟨2, 5⟩ ⟨6, 5⟩, ⟨2, 5⟩⟩,
       [⟨⟨4, 5⟩, ' '⟩]) := by
  refine ⟨rfl, by decide, ?_⟩
  simpa using
    (line_drag_spec Tracer.default
      ⟨Style.line, [], Segment.new, ⟨[⟨⟨4, 5⟩, '_'⟩]⟩, ⟨2, 5⟩⟩ 6 5 rfl
      (by decide)).1

theorem update_base_length (brush : Tracer) (c : Canvas) (e : MouseEvent) :
    ((Canvas.update brush c e).1).base.length =
      c.base.length + (if e.action = MouseAction.release then 1 else 0) := by
  rcases e with ⟨a, p⟩
  cases a <;> unfold Canvas.update <;> simp only []
  · simp
  · split
    · simp
    · cases c.style <;> simp
  · simp

theorem applyEvents_base_length (brush : Tracer) (es : List MouseEvent)
    (c : Canvas) :
    (Canvas.applyEvents brush c es).base.length =
      c.base.length + es.countP (fun e => e.action == MouseAction.release) := by
  induction es generalizing c with
  | nil => simp [Canvas.applyEvents]
  | cons e rest ih =>
      unfold Canvas.applyEvents at ih ⊢
      simp only [List.foldl_cons, List.countP_cons]
      rw [ih, update_base_length]
      by_cases h : e.action = MouseAction.release
      · simp [h]
        omega
      · simp [h]

/-- C10: `Release` unconditionally commits `sketch` onto the end of
`base` and empties `sketch`, even when `sketch` is empty; hence a fresh
`Press`/`Release` pair leaves an empty committed segment, the length of
`base` equals the number of `Release` events processed (no
`undo`/`clear` in the stream), and an `undo` right after such a release
pops that empty segment back off without writing anything. -/
theorem release_always_commits (brush : Tracer) (c : Canvas) (p q : Point) :
    Canvas.update brush c ⟨MouseAction.release, p⟩ =
      ({ c with base := c.base ++ [c.sketch], sketch := Segment.new }, []) ∧
    (Canvas.applyEvents brush Canvas.new
        [⟨MouseAction.press, q⟩, ⟨MouseAction.release, q⟩]).base
      = [Segment.new] ∧
    (∀ es : List MouseEvent,
      (Canvas.applyEvents brush Canvas.new es).base.length =
        es.countP fun e => e.action == MouseAction.release) ∧
    (c.sketch = Segment.new →
      Canvas.undo ((Canvas.update brush c ⟨MouseAction.release, p⟩).1)
        = (c, [])) := by
  refine ⟨rfl, rfl, ?_, ?_⟩
  · intro es
    rw [applyEvents_base_length]
    simp [Canvas.new]
  · intro hs
    have hbase : ((Canvas.update brush c ⟨MouseAction.release, p⟩).1).base
        = c.base ++ [Segment.new] := by
      rw [← hs]
      rfl
    rw [undo_pop _ c.base Segment.new hbase]
    cases c with
    | mk st b o sk cur =>
      cases hs
      rfl

/-- Witness for `release_always_commits`: a fresh canvas (whose sketch is
empty); release then undo restores the very same canvas with no sink
writes. -/
theorem release_always_commits_witness :
    Canvas.new.sketch = Segment.new ∧
    Canvas.undo
        ((Canvas.update Tracer.default Canvas.new
          ⟨MouseAction.release, ⟨1, 1⟩⟩).1) = (Canvas.new, []) :=
  ⟨rfl,
   (release_always_commits Tracer.default Canvas.new ⟨1, 1⟩ ⟨1, 1⟩).2.2.2 rfl⟩

